import Mathlib

/-!
Verification of the portfolio backend (`portfolio-docker/main.go`).

The Go program is embedded shallowly:

* the SQLite `users` table becomes a list of `User` rows with an
  auto-increment counter (`UserStore`);
* the `photos/<category>` directory tree becomes four lists of directory
  entries (`PhotoFS`); `os.ReadDir` yields a directory's entries in its
  enumeration order, `os.Create` truncates an existing regular file or
  appends a fresh entry and fails on a directory, `os.Remove` deletes the
  named entry;
* `bcrypt` is modelled by its interface contract: a hash carries the cost,
  the salt and the hashed password, and `CompareHashAndPassword` succeeds
  exactly when the password matches;
* `golang-jwt/v5` tokens are modelled with an ideal MAC: the HMAC signature
  of a claim set under a key is represented by the pair itself, and
  signature verification is equality.  `jwt.Parse` checks the signing
  method through the key callback, verifies the signature, and (as the v5
  validator does) accepts a present `exp` claim only while `now < exp`;
* instants are Unix seconds as `Nat` (the server only handles post-1970
  times); `time.Format(time.RFC3339)` is modelled for a UTC clock;
* filenames are lists of characters; handler inputs arrive already decoded
  (the JSON/multipart decoding failure branches return 400 in the source
  and are not needed by any claim about decoded inputs).

Every handler is a pure function from its decoded request and the current
store/filesystem state to an HTTP status, a response envelope, and the new
state, translated branch for branch from `main.go`.
-/

/-- Filenames (and path stems/extensions) as explicit character lists. -/
abbrev Filename := List Char

/-- Scan a reversed path for its extension: returns the extension's
characters in reversed order.  Models the loop of Go `filepath.Ext`, which
walks backwards from the end of the path until a path separator and
returns the suffix starting at the final dot. -/
def extOfRev : List Char → List Char
  | [] => []
  | c :: rest =>
    if c = '/' then []
    else if c = '.' then [c]
    else if (extOfRev rest).isEmpty then [] else c :: extOfRev rest

/-- Go `filepath.Ext`: the suffix of the last element starting at the final
dot, or empty when there is none. -/
def filepathExt (name : Filename) : Filename :=
  (extOfRev name.reverse).reverse

/-- Go `strings.TrimSuffix`: drop `suf` from the end of `s` when it is a
suffix, otherwise return `s` unchanged. -/
def trimSuffix (s suf : Filename) : Filename :=
  if suf.isSuffixOf s then s.take (s.length - suf.length) else s

/-- The id the photo handlers derive from a stored filename: the filename
minus its extension (`strings.TrimSuffix(filename, filepath.Ext(filename))`). -/
def stemOf (name : Filename) : Filename :=
  trimSuffix name (filepathExt name)

/-- The sixteen lowercase hex digits used by Go `encoding/hex`. -/
def hexChars : List Char :=
  "0123456789abcdef".data

/-- One lowercase hex digit. -/
def hexDigit (n : Nat) : Char :=
  hexChars.getD (n % 16) '0'

/-- Go `hex.EncodeToString`: two hex digits per byte, high nibble first. -/
def hexEncode : List Nat → List Char
  | [] => []
  | b :: rest => hexDigit (b / 16) :: hexDigit (b % 16) :: hexEncode rest

/-- `generateID` from the source: hex-encode the bytes read from the random
source (the handler reads 16 bytes; the encoding is total in their
number). -/
def generateID (randBytes : List Nat) : Filename :=
  hexEncode randBytes

/-- Zero-pad a number to two digits. -/
def pad2 (n : Nat) : String :=
  if n < 10 then "0" ++ toString n else toString n

/-- Zero-pad a number to four digits. -/
def pad4 (n : Nat) : String :=
  if n < 10 then "000" ++ toString n
  else if n < 100 then "00" ++ toString n
  else if n < 1000 then "0" ++ toString n
  else toString n

/-- Convert days since 1970-01-01 to a civil (year, month, day) date,
by the standard era-decomposition algorithm used for proleptic Gregorian
calendars. -/
def civilFromDays (z : Nat) : Nat × Nat × Nat :=
  let zs := z + 719468
  let era := zs / 146097
  let doe := zs % 146097
  let yoe := (doe - doe / 1460 + doe / 36524 - doe / 146096) / 365
  let y := yoe + era * 400
  let doy := doe - (365 * yoe + yoe / 4 - yoe / 100)
  let mp := (5 * doy + 2) / 153
  let d := doy - (153 * mp + 2) / 5 + 1
  let m := if mp < 10 then mp + 3 else mp - 9
  (if m ≤ 2 then y + 1 else y, m, d)

/-- Go `time.Format(time.RFC3339)` on a Unix-seconds instant, for a clock
in UTC (the timestamp layout `2006-01-02T15:04:05Z07:00`). -/
def formatRFC3339 (t : Nat) : String :=
  let days := t / 86400
  let secs := t % 86400
  let ymd := civilFromDays days
  pad4 ymd.1 ++ "-" ++ pad2 ymd.2.1 ++ "-" ++ pad2 ymd.2.2 ++ "T" ++
    pad2 (secs / 3600) ++ ":" ++ pad2 (secs % 3600 / 60) ++ ":" ++
    pad2 (secs % 60) ++ "Z"

/-- A bcrypt hash, modelled by its contract: it records the cost and salt it
was generated with and determines exactly the password it hashes. -/
structure BcryptHash where
  cost : Nat
  salt : Nat
  pw : String
deriving DecidableEq

/-- `bcrypt.DefaultCost`. -/
def bcryptDefaultCost : Nat := 10

/-- `bcrypt.GenerateFromPassword` with an explicit salt drawn by the
library's random source.  (The Go call can only fail for cost > 31, which
the program never uses.) -/
def bcryptGenerate (password : String) (cost : Nat) (salt : Nat) : BcryptHash :=
  ⟨cost, salt, password⟩

/-- `bcrypt.CompareHashAndPassword`: succeeds exactly when the password is
the one the hash was generated from (salts only make equal passwords hash
differently, they never change comparison results). -/
def bcryptCompare (h : BcryptHash) (password : String) : Bool :=
  h.pw == password

/-- A row of the `users` table. -/
structure User where
  id : Int
  name : String
  email : String
  password : BcryptHash
deriving DecidableEq

/-- The `users` table: rows in rowid order plus the AUTOINCREMENT counter. -/
structure UserStore where
  users : List User
  nextId : Int
deriving DecidableEq

/-- Decoded request body of register/login (`Credentials` in the source). -/
structure Credentials where
  name : String
  email : String
  password : String
deriving DecidableEq

/-- sqlc query `CheckEmailExists`: `SELECT EXISTS(SELECT 1 FROM users WHERE
email = ?)` — 1 when some row has the email, else 0. -/
def CheckEmailExists (st : UserStore) (email : String) : Nat :=
  if st.users.any (fun u => u.email == email) then 1 else 0

/-- sqlc query `GetUserByEmail` (`... WHERE email = ? LIMIT 1`): the first
row in table order with that email. -/
def GetUserByEmail (st : UserStore) (email : String) : Option User :=
  st.users.find? (fun u => u.email == email)

/-- sqlc query `CreateUser`: insert a row with the next AUTOINCREMENT id and
return it together with the updated table. -/
def CreateUser (st : UserStore) (name email : String) (password : BcryptHash) :
    User × UserStore :=
  let u : User := ⟨st.nextId, name, email, password⟩
  (u, ⟨st.users ++ [u], st.nextId + 1⟩)

/-- JWT signing algorithms the middleware can meet in a token header. -/
inductive Alg where
  | HS256
  | HS384
  | HS512
  | RS256
  | ES256
deriving DecidableEq

/-- Whether the algorithm is an instance of `jwt.SigningMethodHMAC` (the
check the key callback in `authMiddleware` performs). -/
def Alg.isHMAC : Alg → Bool
  | .HS256 => true
  | .HS384 => true
  | .HS512 => true
  | _ => false

/-- The claim set the program puts in and reads from tokens
(`jwt.MapClaims` restricted to the keys the program touches; a missing key
is `none`).  Times are Unix seconds. -/
structure MapClaims where
  user_id : Option Int
  email : Option String
  exp : Option Nat
deriving DecidableEq

/-- An HMAC signature in the ideal-MAC model: the signature is determined
by (and determines) the key, the algorithm and the signed claim set, and
verifying is comparing. -/
structure Sig where
  key : List Nat
  alg : Alg
  claims : MapClaims
deriving DecidableEq

/-- Produce the HMAC signature of a claim set under a key. -/
def hmacSign (key : List Nat) (alg : Alg) (claims : MapClaims) : Sig :=
  ⟨key, alg, claims⟩

/-- A structurally well-formed JWT: header algorithm, claims, signature. -/
structure SignedToken where
  alg : Alg
  claims : MapClaims
  sig : Sig
deriving DecidableEq

/-- What the bearer part of an Authorization header can hold: a serialized
token, or bytes that do not parse as a JWT at all. -/
inductive TokenString where
  | ofToken (t : SignedToken)
  | malformed
deriving DecidableEq

/-- `jwt.Parse` with the program's key callback: reject non-HMAC signing
methods (the callback's algorithm-confusion guard), verify the signature
under the server key, and run the v5 default claims validator, which
accepts a present `exp` only while `now < exp`.  Returns the parsed token
(`token.Valid = true`) or `none` for the error cases. -/
def jwtParse (key : List Nat) (now : Nat) : TokenString → Option SignedToken
  | .malformed => none
  | .ofToken t =>
    if !t.alg.isHMAC then none
    else if t.sig = hmacSign key t.alg t.claims then
      match t.claims.exp with
      | some e => if now < e then some t else none
      | none => some t
    else none

/-- `generateJWT`: an HS256 token with claims `user_id`, `email` and
`exp = now + 24h`, signed with the server key. -/
def generateJWT (key : List Nat) (userId : Int) (email : String) (now : Nat) :
    SignedToken :=
  let claims : MapClaims := ⟨some userId, some email, some (now + 24 * 3600)⟩
  ⟨.HS256, claims, hmacSign key .HS256 claims⟩

/-- The user summary embedded in responses (`UserResponse`). -/
structure UserResponse where
  id : Int
  name : String
  email : String
deriving DecidableEq

/-- A photo in a response (`PhotoResponse`). -/
structure PhotoResponse where
  id : Filename
  filename : Filename
  title : Filename
  category : String
  url : String
  uploadDate : String
deriving DecidableEq

/-- The `Data interface{}` payload of the envelope: absent, one photo
(upload), or a list of photos (listing). -/
inductive RespData where
  | noData
  | photo (p : PhotoResponse)
  | photos (ps : List PhotoResponse)
deriving DecidableEq

/-- The uniform response envelope (`Response`). -/
structure Response where
  success : Bool
  message : Option String
  token : Option SignedToken
  user : Option UserResponse
  data : RespData
deriving DecidableEq

/-- `respondWithError`: failure envelope with only a message. -/
def errResponse (message : String) : Response :=
  ⟨false, some message, none, none, .noData⟩

/-- Success envelope with only a message. -/
def msgResponse (message : String) : Response :=
  ⟨true, some message, none, none, .noData⟩

/-- `registerHandler` on a decoded body: empty-field check, advisory
existence check, bcrypt hash, insert, 201. -/
def registerHandler (creds : Credentials) (salt : Nat) (st : UserStore) :
    Nat × Response × UserStore :=
  if creds.name == "" || creds.email == "" || creds.password == "" then
    (400, errResponse "Name, email, and password are required", st)
  else if CheckEmailExists st creds.email == 1 then
    (409, errResponse "Email already in use", st)
  else
    let hashed := bcryptGenerate creds.password bcryptDefaultCost salt
    let created := CreateUser st creds.name creds.email hashed
    (201, msgResponse "User registered successfully", created.2)

/-- `loginHandler` on a decoded body: empty-field check, row lookup by
email, bcrypt comparison, token issuance.  Both the unknown-email and the
wrong-password paths answer 401 "Invalid email or password". -/
def loginHandler (creds : Credentials) (key : List Nat) (now : Nat)
    (st : UserStore) : Nat × Response :=
  if creds.email == "" || creds.password == "" then
    (400, errResponse "Email and password are required")
  else
    match GetUserByEmail st creds.email with
    | none => (401, errResponse "Invalid email or password")
    | some user =>
      if !bcryptCompare user.password creds.password then
        (401, errResponse "Invalid email or password")
      else
        let token := generateJWT key user.id user.email now
        (200, ⟨true, none, some token, some ⟨user.id, user.name, user.email⟩, .noData⟩)

/-- A directory entry as `os.ReadDir` reports it, together with the file
bytes (directories carry no meaningful content). -/
structure DirEntry where
  name : Filename
  isDir : Bool
  modTime : Nat
  content : List Nat
deriving DecidableEq

/-- The `photos` directory tree: one directory per fixed category, each a
list of entries in enumeration order. -/
structure PhotoFS where
  featured : List DirEntry
  digitalSketches : List DirEntry
  notebookSketches : List DirEntry
  photography : List DirEntry
deriving DecidableEq

/-- `os.ReadDir("photos/" + category)`: the entries of a category
directory; an unknown category directory does not exist. -/
def PhotoFS.readDir (fs : PhotoFS) (category : String) : Option (List DirEntry) :=
  if category = "featured" then some fs.featured
  else if category = "digital-sketches" then some fs.digitalSketches
  else if category = "notebook-sketches" then some fs.notebookSketches
  else if category = "photography" then some fs.photography
  else none

/-- Replace the entry list of one of the four category directories. -/
def PhotoFS.setDir (fs : PhotoFS) (category : String) (entries : List DirEntry) :
    PhotoFS :=
  if category = "featured" then { fs with featured := entries }
  else if category = "digital-sketches" then { fs with digitalSketches := entries }
  else if category = "notebook-sketches" then { fs with notebookSketches := entries }
  else if category = "photography" then { fs with photography := entries }
  else fs

/-- `os.Create` followed by `io.Copy` inside a directory: truncate and
rewrite an existing regular file of that name, append a fresh entry when
the name is free, and fail (`none`) when the name belongs to a
subdirectory. -/
def createFile (entries : List DirEntry) (name : Filename) (content : List Nat)
    (now : Nat) : Option (List DirEntry) :=
  match entries.find? (fun e => e.name == name) with
  | some e =>
    if e.isDir then none
    else some (entries.map (fun e2 =>
      if e2.name == name then { e2 with modTime := now, content := content } else e2))
  | none => some (entries ++ [⟨name, false, now, content⟩])

/-- The `validCategories` lookup both photo handlers build: membership in
the fixed map {featured, digital-sketches, notebook-sketches, photography}. -/
def validCategories (category : String) : Bool :=
  category == "featured" || category == "digital-sketches" ||
    category == "notebook-sketches" || category == "photography"

/-- Go `strings.HasPrefix s pre`: byte-level prefix test. -/
def hasPrefixGo (s pre : String) : Bool :=
  pre.data.isPrefixOf s.data

/-- The `photo` part of the multipart form: original filename, part header
Content-Type, bytes. -/
structure FilePart where
  filename : Filename
  contentType : String
  content : List Nat
deriving DecidableEq

/-- The decoded multipart upload form: title and category values, and the
`photo` file part when `r.FormFile` finds one. -/
structure UploadForm where
  title : Filename
  category : String
  file : Option FilePart
deriving DecidableEq

/-- `uploadPhotoHandler` on a decoded form: category check, file-part
check, image content-type check, random id, write `<id><ext>` into the
category directory, 201 with the assembled photo record. -/
def uploadPhotoHandler (form : UploadForm) (randBytes : List Nat) (now : Nat)
    (host : String) (tls : Bool) (fs : PhotoFS) : Nat × Response × PhotoFS :=
  if !validCategories form.category then
    (400, errResponse "Invalid category", fs)
  else
    match form.file with
    | none => (400, errResponse "Failed to get file from form", fs)
    | some fp =>
      if !hasPrefixGo fp.contentType "image/" then
        (400, errResponse "File must be an image", fs)
      else
        let fileExt := filepathExt fp.filename
        let photoID := generateID randBytes
        let filename := photoID ++ fileExt
        match fs.readDir form.category with
        | none => (500, errResponse "Failed to create destination file", fs)
        | some entries =>
          match createFile entries filename fp.content now with
          | none => (500, errResponse "Failed to create destination file", fs)
          | some entries2 =>
            let scheme := if tls then "https" else "http"
            let url := scheme ++ "://" ++ host ++ "/photos/" ++ form.category ++
              "/" ++ String.mk filename
            (201,
             ⟨true, some "Photo uploaded successfully", none, none,
              .photo ⟨photoID, filename, form.title, form.category, url,
                formatRFC3339 now⟩⟩,
             fs.setDir form.category entries2)

/-- The photo record the listing assembles for one directory entry: id and
title are the filename minus its extension, the timestamp is the file
modification time. -/
def photoRecordOf (host : String) (tls : Bool) (category : String)
    (e : DirEntry) : PhotoResponse :=
  let fileExt := filepathExt e.name
  let photoID := trimSuffix e.name fileExt
  let scheme := if tls then "https" else "http"
  ⟨photoID, e.name, trimSuffix e.name fileExt, category,
   scheme ++ "://" ++ host ++ "/photos/" ++ category ++ "/" ++ String.mk e.name,
   formatRFC3339 e.modTime⟩

/-- The listing loop: skip subdirectories, build a record per file. -/
def photosLoop (host : String) (tls : Bool) (category : String) :
    List DirEntry → List PhotoResponse
  | [] => []
  | e :: rest =>
    if e.isDir then photosLoop host tls category rest
    else photoRecordOf host tls category e :: photosLoop host tls category rest

/-- `getPhotosByCategoryHandler`: category check, directory read, record
per regular file. -/
def getPhotosByCategoryHandler (category : String) (host : String) (tls : Bool)
    (fs : PhotoFS) : Nat × Response :=
  if !validCategories category then
    (400, errResponse "Invalid category")
  else
    match fs.readDir category with
    | none => (500, errResponse "Failed to read directory")
    | some entries =>
      (200, ⟨true, none, none, none, .photos (photosLoop host tls category entries)⟩)

/-- The test the delete scan applies to a directory entry: a regular file
whose filename stem equals the requested id. -/
def isMatch (photoID : Filename) (e : DirEntry) : Bool :=
  !e.isDir && stemOf e.name == photoID

/-- The inner loop of `deletePhotoHandler` over one directory: the first
regular file whose filename stem equals the id, if any. -/
def findInDir (entries : List DirEntry) (photoID : Filename) : Option Filename :=
  (entries.find? (isMatch photoID)).map (fun e => e.name)

/-- The outer loop of `deletePhotoHandler`: scan the four category
directories in the fixed order of the `categories` slice, first hit wins. -/
def findPhotoPath (fs : PhotoFS) (photoID : Filename) : Option (String × Filename) :=
  match findInDir fs.featured photoID with
  | some n => some ("featured", n)
  | none =>
    match findInDir fs.digitalSketches photoID with
    | some n => some ("digital-sketches", n)
    | none =>
      match findInDir fs.notebookSketches photoID with
      | some n => some ("notebook-sketches", n)
      | none =>
        match findInDir fs.photography photoID with
        | some n => some ("photography", n)
        | none => none

/-- `os.Remove` inside a directory: drop the first entry carrying the
name. -/
def removeFromDir (entries : List DirEntry) (name : Filename) : List DirEntry :=
  entries.eraseP (fun e => e.name == name)

/-- Remove a found `photos/<category>/<name>` path from the tree. -/
def PhotoFS.removePath (fs : PhotoFS) (category : String) (name : Filename) :
    PhotoFS :=
  match fs.readDir category with
  | none => fs
  | some entries => fs.setDir category (removeFromDir entries name)

/-- `deletePhotoHandler`: linear scan of all categories for the stem,
404 when nothing matches, otherwise remove the found file and answer 200. -/
def deletePhotoHandler (photoID : Filename) (fs : PhotoFS) :
    Nat × Response × PhotoFS :=
  match findPhotoPath fs photoID with
  | none => (404, errResponse "Photo not found", fs)
  | some found =>
    (200, msgResponse "Photo deleted successfully",
     fs.removePath found.1 found.2)

/-- The Authorization header as the middleware case-splits on it: absent or
empty, non-empty without the `Bearer ` prefix, or `Bearer ` plus a token
string. -/
inductive AuthHeader where
  | empty
  | noBearer
  | bearer (ts : TokenString)
deriving DecidableEq

/-- What the middleware decides before the wrapped handler: reject with a
401 message, crash on the unchecked `user_id` type assertion, or pass the
extracted user id on. -/
inductive MWResult where
  | unauthorized (msg : String)
  | panicked
  | ok (userID : Int)
deriving DecidableEq

/-- `authMiddleware`'s decision: header present, `Bearer ` prefix,
`jwt.Parse` (signature, algorithm guard, v5 expiry validation), the
handler's own expiry re-check, then the unchecked numeric `user_id`
assertion. -/
def authMiddleware (key : List Nat) (now : Nat) (hdr : AuthHeader) : MWResult :=
  match hdr with
  | .empty => .unauthorized "Authorization header required"
  | .noBearer => .unauthorized "Invalid authorization format"
  | .bearer ts =>
    match jwtParse key now ts with
    | none => .unauthorized "Invalid token"
    | some tok =>
      match tok.claims.exp with
      | some e =>
        if now > e then .unauthorized "Token expired"
        else
          match tok.claims.user_id with
          | some uid => .ok uid
          | none => .panicked
      | none =>
        match tok.claims.user_id with
        | some uid => .ok uid
        | none => .panicked

/-- Outcome of one request against a protected route over server state
`St`: a response together with the state after the request, or a crash of
the handling goroutine. -/
inductive ProtectedOutcome (St : Type) where
  | resp (code : Nat) (body : Response) (st : St)
  | panicked

/-- A protected route: the middleware first, the wrapped handler only when
it extracted a user id. -/
def runProtected {St : Type} (key : List Nat) (now : Nat) (hdr : AuthHeader)
    (next : Int → St → Nat × Response × St) (st : St) : ProtectedOutcome St :=
  match authMiddleware key now hdr with
  | .unauthorized msg => .resp 401 (errResponse msg) st
  | .panicked => .panicked
  | .ok uid =>
    let out := next uid st
    .resp out.1 out.2.1 out.2.2

/-- A token correctly signed with the server key, unexpired at `now`
(its `exp` is `now + 1`), but carrying no `user_id` claim. -/
def noUserIdToken (key : List Nat) (email : String) (now : Nat) : SignedToken :=
  ⟨.HS256, ⟨none, some email, some (now + 1)⟩,
   hmacSign key .HS256 ⟨none, some email, some (now + 1)⟩⟩

/-- Whether an `exp` claim is present and has passed at `now`. -/
def expPassed (now : Nat) : Option Nat → Bool
  | some e => decide (e ≤ now)
  | none => false

/-- The rejection cases of C3, read off the claim: Authorization header
missing, no `Bearer ` prefix, a bearer payload that is not a JWT, a token
whose signature does not verify under the server key, a non-HMAC signing
algorithm, or an `exp` that has passed. -/
def badHeader (key : List Nat) (now : Nat) : AuthHeader → Bool
  | .empty => true
  | .noBearer => true
  | .bearer .malformed => true
  | .bearer (.ofToken t) =>
    !t.alg.isHMAC || !(t.sig == hmacSign key t.alg t.claims) ||
      expPassed now t.claims.exp

/-- The delete scan's search space in its fixed order: every entry of the
four category directories, tagged with its category, `featured` first,
then `digital-sketches`, `notebook-sketches`, `photography`. -/
def allTagged (fs : PhotoFS) : List (String × DirEntry) :=
  fs.featured.map (fun e => ("featured", e)) ++
    fs.digitalSketches.map (fun e => ("digital-sketches", e)) ++
    fs.notebookSketches.map (fun e => ("notebook-sketches", e)) ++
    fs.photography.map (fun e => ("photography", e))

/-- How many regular files across all category directories carry the given
stem. -/
def countMatches (fs : PhotoFS) (photoID : Filename) : Nat :=
  fs.featured.countP (isMatch photoID) +
    fs.digitalSketches.countP (isMatch photoID) +
    fs.notebookSketches.countP (isMatch photoID) +
    fs.photography.countP (isMatch photoID)

/-- Filenames inside one directory are pairwise distinct (a real
filesystem guarantees this). -/
def dirNodupNames (entries : List DirEntry) : Prop :=
  (entries.map (fun e => e.name)).Nodup

/-- Every category directory has pairwise distinct filenames. -/
def fsNodupNames (fs : PhotoFS) : Prop :=
  dirNodupNames fs.featured ∧ dirNodupNames fs.digitalSketches ∧
    dirNodupNames fs.notebookSketches ∧ dirNodupNames fs.photography

/-- The valid-category test accepts exactly the four fixed names. -/
theorem validCategories_iff {c : String} :
    validCategories c = true ↔
      c = "featured" ∨ c = "digital-sketches" ∨
        c = "notebook-sketches" ∨ c = "photography" := by
  simp [validCategories, beq_iff_eq, Bool.or_eq_true, or_assoc]

/-- Reading back the directory a `setDir` just replaced. -/
theorem readDir_setDir_self {fs : PhotoFS} {c : String} {l : List DirEntry}
    (h : validCategories c = true) : (fs.setDir c l).readDir c = some l := by
  rcases validCategories_iff.mp h with h | h | h | h <;> subst h <;>
    simp [PhotoFS.setDir, PhotoFS.readDir]

/-- Every valid category directory exists. -/
theorem readDir_of_valid (fs : PhotoFS) {c : String}
    (h : validCategories c = true) : ∃ l, fs.readDir c = some l := by
  rcases validCategories_iff.mp h with h | h | h | h <;> subst h
  · exact ⟨fs.featured, rfl⟩
  · exact ⟨fs.digitalSketches, rfl⟩
  · exact ⟨fs.notebookSketches, rfl⟩
  · exact ⟨fs.photography, rfl⟩

/-- `find?` skips a block in which nothing satisfies the test. -/
theorem find?_append_left_none {α : Type} {p : α → Bool} {l₁ : List α}
    (l₂ : List α) (h : l₁.find? p = none) :
    (l₁ ++ l₂).find? p = l₂.find? p := by
  induction l₁ with
  | nil => rfl
  | cons a l ih =>
    cases hpa : p a with
    | true => simp [List.find?_cons, hpa] at h
    | false =>
      simp only [List.cons_append, List.find?_cons, hpa] at h ⊢
      exact ih h

/-- C7: the category check accepts exactly the closed set {featured,
digital-sketches, notebook-sketches, photography}; for every category
string outside this set, both upload and listing return 400 "Invalid
category", the filesystem is returned unchanged, and neither answer
depends on the filesystem at all (no read or write is performed). -/
theorem claim_C7 :
    (∀ c : String, validCategories c = true ↔
       c = "featured" ∨ c = "digital-sketches" ∨
         c = "notebook-sketches" ∨ c = "photography") ∧
    (∀ c : String, validCategories c = false →
      ∀ (title : Filename) (file : Option FilePart) (randBytes : List Nat)
        (now : Nat) (host : String) (tls : Bool) (fs : PhotoFS),
        uploadPhotoHandler ⟨title, c, file⟩ randBytes now host tls fs =
          (400, errResponse "Invalid category", fs) ∧
        getPhotosByCategoryHandler c host tls fs =
          (400, errResponse "Invalid category")) := by
  constructor
  · intro c
    exact validCategories_iff
  · intro c hc title file randBytes now host tls fs
    constructor
    · simp [uploadPhotoHandler, hc]
    · simp [getPhotosByCategoryHandler, hc]

/-- Witness for C7 at the concrete invalid category "bogus". -/
theorem claim_C7_witness :
    validCategories "bogus" = false ∧
    (uploadPhotoHandler ⟨[], "bogus", none⟩ [] 0 "h" false ⟨[], [], [], []⟩ =
       (400, errResponse "Invalid category", ⟨[], [], [], []⟩) ∧
     getPhotosByCategoryHandler "bogus" "h" false ⟨[], [], [], []⟩ =
       (400, errResponse "Invalid category")) :=
  ⟨by decide, claim_C7.2 "bogus" (by decide) [] none [] 0 "h" false ⟨[], [], [], []⟩⟩

/-- C6: an upload to a valid category whose file part is not an image
content type answers 400 "File must be an image" and leaves the
filesystem exactly as it was (the content-type check precedes the
destination-file creation). -/
theorem claim_C6 (title : Filename) (category : String) (fp : FilePart)
    (randBytes : List Nat) (now : Nat) (host : String) (tls : Bool)
    (fs : PhotoFS) (hcat : validCategories category = true)
    (hct : hasPrefixGo fp.contentType "image/" = false) :
    uploadPhotoHandler ⟨title, category, some fp⟩ randBytes now host tls fs =
      (400, errResponse "File must be an image", fs) := by
  simp [uploadPhotoHandler, hcat, hct]

/-- Witness for C6: a text/plain upload to "photography". -/
theorem claim_C6_witness :
    validCategories "photography" = true ∧
    hasPrefixGo "text/plain" "image/" = false ∧
    uploadPhotoHandler
        ⟨[], "photography", some ⟨['a', '.', 't', 'x', 't'], "text/plain", [1]⟩⟩
        [7] 3 "h" false ⟨[], [], [], []⟩ =
      (400, errResponse "File must be an image", ⟨[], [], [], []⟩) :=
  ⟨by decide, by decide,
   claim_C6 [] "photography" ⟨['a', '.', 't', 'x', 't'], "text/plain", [1]⟩
     [7] 3 "h" false ⟨[], [], [], []⟩ (by decide) (by decide)⟩

/-- C9: a login with an email that is not stored and a login with a stored
email but a wrong password produce literally the same response, 401 with
message "Invalid email or password". -/
theorem claim_C9 (st : UserStore) (key : List Nat) (now : Nat)
    (credsA credsB : Credentials) (u : User)
    (hae : credsA.email ≠ "") (hap : credsA.password ≠ "")
    (hbe : credsB.email ≠ "") (hbp : credsB.password ≠ "")
    (habs : GetUserByEmail st credsA.email = none)
    (hfound : GetUserByEmail st credsB.email = some u)
    (hwrong : bcryptCompare u.password credsB.password = false) :
    loginHandler credsA key now st = loginHandler credsB key now st ∧
    loginHandler credsA key now st =
      (401, errResponse "Invalid email or password") := by
  have ha : loginHandler credsA key now st =
      (401, errResponse "Invalid email or password") := by
    simp [loginHandler, beq_eq_false_iff_ne.mpr hae,
      beq_eq_false_iff_ne.mpr hap, habs]
  have hb : loginHandler credsB key now st =
      (401, errResponse "Invalid email or password") := by
    simp [loginHandler, beq_eq_false_iff_ne.mpr hbe,
      beq_eq_false_iff_ne.mpr hbp, hfound, hwrong]
  exact ⟨ha.trans hb.symm, ha⟩

/-- Witness for C9: a store holding one account `b@x` and the two
indistinguishable failing logins. -/
theorem claim_C9_witness :
    GetUserByEmail ⟨[⟨1, "n", "b@x", ⟨10, 0, "pw"⟩⟩], 2⟩ "a@x" = none ∧
    GetUserByEmail ⟨[⟨1, "n", "b@x", ⟨10, 0, "pw"⟩⟩], 2⟩ "b@x" =
      some ⟨1, "n", "b@x", ⟨10, 0, "pw"⟩⟩ ∧
    bcryptCompare ⟨10, 0, "pw"⟩ "wrong" = false ∧
    (loginHandler ⟨"", "a@x", "p"⟩ [] 0 ⟨[⟨1, "n", "b@x", ⟨10, 0, "pw"⟩⟩], 2⟩ =
       loginHandler ⟨"", "b@x", "wrong"⟩ [] 0 ⟨[⟨1, "n", "b@x", ⟨10, 0, "pw"⟩⟩], 2⟩ ∧
     loginHandler ⟨"", "a@x", "p"⟩ [] 0 ⟨[⟨1, "n", "b@x", ⟨10, 0, "pw"⟩⟩], 2⟩ =
       (401, errResponse "Invalid email or password")) :=
  ⟨by decide, by decide, by decide,
   claim_C9 ⟨[⟨1, "n", "b@x", ⟨10, 0, "pw"⟩⟩], 2⟩ [] 0
     ⟨"", "a@x", "p"⟩ ⟨"", "b@x", "wrong"⟩ ⟨1, "n", "b@x", ⟨10, 0, "pw"⟩⟩
     (by decide) (by decide) (by decide) (by decide)
     (by decide) (by decide) (by decide)⟩

/-- C10: a correctly signed, unexpired token without a numeric `user_id`
claim passes `jwt.Parse`, and the middleware then crashes on the unchecked
`claims["user_id"].(float64)` type assertion instead of answering 401. -/
theorem claim_C10 (key : List Nat) (email : String) (now : Nat) :
    jwtParse key now (.ofToken (noUserIdToken key email now)) =
      some (noUserIdToken key email now) ∧
    authMiddleware key now (.bearer (.ofToken (noUserIdToken key email now))) =
      .panicked ∧
    ∀ (St : Type) (next : Int → St → Nat × Response × St) (st : St),
      runProtected key now (.bearer (.ofToken (noUserIdToken key email now)))
          next st = .panicked := by
  have hparse : jwtParse key now (.ofToken (noUserIdToken key email now)) =
      some (noUserIdToken key email now) := by
    simp [jwtParse, noUserIdToken, hmacSign, Alg.isHMAC]
  have hmw : authMiddleware key now
      (.bearer (.ofToken (noUserIdToken key email now))) = .panicked := by
    have hlt : ¬ (now + 1 < now) := by omega
    simp only [authMiddleware]
    rw [hparse]
    simp [noUserIdToken, hlt]
  exact ⟨hparse, hmw, fun St next st => by simp [runProtected, hmw]⟩

/-- C2: a token issued by login at time `T` carries `exp = T + 24h`; the
middleware accepts it (and hands the bearer's user id to the handler) at
every instant strictly before `T + 24h`, and at every instant at or after
`T + 24h` the v5 parser reports it expired and the request is answered
401 with the state untouched. -/
theorem claim_C2 (key : List Nat) (uid : Int) (email : String) (T now : Nat) :
    (now < T + 24 * 3600 →
       authMiddleware key now
           (.bearer (.ofToken (generateJWT key uid email T))) = .ok uid) ∧
    (T + 24 * 3600 ≤ now →
       ∀ (St : Type) (next : Int → St → Nat × Response × St) (st : St),
         runProtected key now (.bearer (.ofToken (generateJWT key uid email T)))
             next st = .resp 401 (errResponse "Invalid token") st) := by
  constructor
  · intro h
    have hng : ¬ (T + 24 * 3600 < now) := by omega
    simp [authMiddleware, jwtParse, generateJWT, hmacSign, Alg.isHMAC, h, hng]
  · intro h St next st
    have hng : ¬ (now < T + 24 * 3600) := by omega
    simp [runProtected, authMiddleware, jwtParse, generateJWT, hmacSign,
      Alg.isHMAC, hng]

/-- Witness for C2 at `T = 0`: the instant `86399` is accepted with the
bearer's id, the instant `86400` is rejected 401. -/
theorem claim_C2_witness :
    (86399 < 0 + 24 * 3600 ∧
     authMiddleware [3] 86399
         (.bearer (.ofToken (generateJWT [3] 7 "a@x" 0))) = .ok 7) ∧
    (0 + 24 * 3600 ≤ 86400 ∧
     runProtected [3] 86400 (.bearer (.ofToken (generateJWT [3] 7 "a@x" 0)))
         (fun _ st => (200, msgResponse "profile", st)) (0 : Nat) =
       .resp 401 (errResponse "Invalid token") 0) :=
  ⟨⟨by decide, (claim_C2 [3] 7 "a@x" 0 86399).1 (by decide)⟩,
   ⟨by decide, (claim_C2 [3] 7 "a@x" 0 86400).2 (by decide) Nat
      (fun _ st => (200, msgResponse "profile", st)) 0⟩⟩

/-- On a bad header the parser rejects the bearer token. -/
theorem jwtParse_none_of_bad {key : List Nat} {now : Nat} {ts : TokenString}
    (h : badHeader key now (.bearer ts) = true) :
    jwtParse key now ts = none := by
  cases ts with
  | malformed => rfl
  | ofToken t =>
    have h2 : (!t.alg.isHMAC || !(t.sig == hmacSign key t.alg t.claims) ||
        expPassed now t.claims.exp) = true := h
    simp only [Bool.or_eq_true] at h2
    rcases h2 with (h | h) | h
    · have halg : t.alg.isHMAC = false := by simpa using h
      simp [jwtParse, halg]
    · have hsig : t.sig ≠ hmacSign key t.alg t.claims := by simpa using h
      cases halg : t.alg.isHMAC with
      | false => simp [jwtParse, halg]
      | true => simp [jwtParse, halg, hsig]
    · obtain ⟨e, hexp, hle⟩ : ∃ e, t.claims.exp = some e ∧ e ≤ now := by
        revert h
        cases t.claims.exp with
        | none => intro h; simp [expPassed] at h
        | some e => intro h; exact ⟨e, rfl, by simpa [expPassed] using h⟩
      have hng : ¬ (now < e) := by omega
      cases halg : t.alg.isHMAC with
      | false => simp [jwtParse, halg]
      | true =>
        by_cases hsig : t.sig = hmacSign key t.alg t.claims
        · simp [jwtParse, halg, hsig, hexp, hng]
        · simp [jwtParse, halg, hsig]

/-- C3: whenever the Authorization header is missing, lacks the Bearer
prefix, or carries a malformed, mis-signed, non-HMAC or expired token, a
protected route answers 401 before its handler runs, with a message that
depends only on the header — the server state is returned untouched and
the response is the same over any state and any wrapped handler, so
nothing about existing resources can leak. -/
theorem claim_C3 (key : List Nat) (now : Nat) (hdr : AuthHeader)
    (h : badHeader key now hdr = true) :
    ∃ msg : String,
      ∀ (St : Type) (next : Int → St → Nat × Response × St) (st : St),
        runProtected key now hdr next st = .resp 401 (errResponse msg) st := by
  cases hdr with
  | empty => exact ⟨"Authorization header required", fun St next st => rfl⟩
  | noBearer => exact ⟨"Invalid authorization format", fun St next st => rfl⟩
  | bearer ts =>
    have hnone := jwtParse_none_of_bad h
    exact ⟨"Invalid token", fun St next st => by
      simp [runProtected, authMiddleware, hnone]⟩

/-- Witness for C3 at the concrete missing header over a one-account
store. -/
theorem claim_C3_witness :
    badHeader [3] 5 .empty = true ∧
    ∃ msg : String,
      ∀ (next : Int → UserStore → Nat × Response × UserStore)
        (st : UserStore),
        runProtected [3] 5 .empty next st = .resp 401 (errResponse msg) st :=
  ⟨by decide,
   match claim_C3 [3] 5 .empty (by decide) with
   | ⟨msg, hmsg⟩ => ⟨msg, fun next st => hmsg UserStore next st⟩⟩

/-- C1: registering a fresh account with non-empty fields answers 201, and
a login with the same email and password then answers 200 with a token
whose `user_id` claim is the created row's id and whose `email` claim is
the created row's email. -/
theorem claim_C1 (creds : Credentials) (salt : Nat) (key : List Nat)
    (now : Nat) (loginName : String) (st : UserStore)
    (hn : creds.name ≠ "") (he : creds.email ≠ "") (hp : creds.password ≠ "")
    (hfree : CheckEmailExists st creds.email = 0) :
    (registerHandler creds salt st).1 = 201 ∧
    (loginHandler ⟨loginName, creds.email, creds.password⟩ key now
        (registerHandler creds salt st).2.2).1 = 200 ∧
    ∃ tok : SignedToken,
      (loginHandler ⟨loginName, creds.email, creds.password⟩ key now
          (registerHandler creds salt st).2.2).2.token = some tok ∧
      ∃ u : User,
        u ∈ (registerHandler creds salt st).2.2.users ∧
        u.id = st.nextId ∧ u.email = creds.email ∧
        tok.claims.user_id = some u.id ∧ tok.claims.email = some u.email := by
  have hany : st.users.any (fun u => u.email == creds.email) = false := by
    cases hx : st.users.any (fun u => u.email == creds.email) with
    | false => rfl
    | true => rw [CheckEmailExists, hx] at hfree; simp at hfree
  have hreg : registerHandler creds salt st =
      (201, msgResponse "User registered successfully",
       ⟨st.users ++ [⟨st.nextId, creds.name, creds.email,
          ⟨bcryptDefaultCost, salt, creds.password⟩⟩], st.nextId + 1⟩) := by
    simp [registerHandler, beq_eq_false_iff_ne.mpr hn,
      beq_eq_false_iff_ne.mpr he, beq_eq_false_iff_ne.mpr hp,
      CheckEmailExists, hany, CreateUser, bcryptGenerate]
  have hfindnil : st.users.find? (fun u => u.email == creds.email) = none := by
    rw [List.find?_eq_none]
    intro u hu
    have := List.any_eq_false.mp hany u hu
    simpa using this
  have hfind : GetUserByEmail
      ⟨st.users ++ [⟨st.nextId, creds.name, creds.email,
         ⟨bcryptDefaultCost, salt, creds.password⟩⟩], st.nextId + 1⟩
      creds.email =
      some ⟨st.nextId, creds.name, creds.email,
        ⟨bcryptDefaultCost, salt, creds.password⟩⟩ := by
    rw [GetUserByEmail]
    rw [find?_append_left_none _ hfindnil]
    simp [List.find?]
  have hlogin : loginHandler ⟨loginName, creds.email, creds.password⟩ key now
      ⟨st.users ++ [⟨st.nextId, creds.name, creds.email,
         ⟨bcryptDefaultCost, salt, creds.password⟩⟩], st.nextId + 1⟩ =
      (200, ⟨true, none,
        some (generateJWT key st.nextId creds.email now),
        some ⟨st.nextId, creds.name, creds.email⟩, .noData⟩) := by
    simp [loginHandler, beq_eq_false_iff_ne.mpr he,
      beq_eq_false_iff_ne.mpr hp, hfind, bcryptCompare]
  rw [hreg]
  refine ⟨rfl, ?_, ?_⟩
  · rw [hlogin]
  · exact ⟨generateJWT key st.nextId creds.email now,
      by rw [hlogin],
      ⟨st.nextId, creds.name, creds.email,
        ⟨bcryptDefaultCost, salt, creds.password⟩⟩,
      by simp, rfl, rfl, rfl, rfl⟩

/-- Witness for C1: registering `A / a@x.com / pw` against the empty store
and logging in again. -/
theorem claim_C1_witness :
    ("A" : String) ≠ "" ∧ ("a@x.com" : String) ≠ "" ∧ ("pw" : String) ≠ "" ∧
    CheckEmailExists ⟨[], 1⟩ "a@x.com" = 0 ∧
    ((registerHandler ⟨"A", "a@x.com", "pw"⟩ 7 ⟨[], 1⟩).1 = 201 ∧
     (loginHandler ⟨"", "a@x.com", "pw"⟩ [3] 100
         (registerHandler ⟨"A", "a@x.com", "pw"⟩ 7 ⟨[], 1⟩).2.2).1 = 200 ∧
     ∃ tok : SignedToken,
       (loginHandler ⟨"", "a@x.com", "pw"⟩ [3] 100
           (registerHandler ⟨"A", "a@x.com", "pw"⟩ 7 ⟨[], 1⟩).2.2).2.token =
         some tok ∧
       ∃ u : User,
         u ∈ (registerHandler ⟨"A", "a@x.com", "pw"⟩ 7 ⟨[], 1⟩).2.2.users ∧
         u.id = 1 ∧ u.email = "a@x.com" ∧
         tok.claims.user_id = some u.id ∧ tok.claims.email = some u.email) :=
  ⟨by decide, by decide, by decide, by decide,
   claim_C1 ⟨"A", "a@x.com", "pw"⟩ 7 [3] 100 "" ⟨[], 1⟩
     (by decide) (by decide) (by decide) (by decide)⟩

/-- Every record the listing loop emits comes from a regular file of the
directory, via `photoRecordOf`. -/
theorem photosLoop_sound {host : String} {tls : Bool} {category : String} :
    ∀ {l : List DirEntry} {r : PhotoResponse},
      r ∈ photosLoop host tls category l →
      ∃ e, e ∈ l ∧ e.isDir = false ∧ r = photoRecordOf host tls category e := by
  intro l
  induction l with
  | nil => intro r hr; simp [photosLoop] at hr
  | cons e rest ih =>
    intro r hr
    cases hd : e.isDir with
    | true =>
      rw [photosLoop, if_pos (by rw [hd])] at hr
      obtain ⟨e2, he2, hdd, hrr⟩ := ih hr
      exact ⟨e2, by simp [he2], hdd, hrr⟩
    | false =>
      rw [photosLoop, if_neg (by rw [hd]; exact Bool.false_ne_true)] at hr
      rcases List.mem_cons.mp hr with hr | hr
      · exact ⟨e, by simp, hd, hr⟩
      · obtain ⟨e2, he2, hdd, hrr⟩ := ih hr
        exact ⟨e2, by simp [he2], hdd, hrr⟩

/-- A regular file of the directory produces a record in the listing loop. -/
theorem photosLoop_complete {host : String} {tls : Bool} {category : String} :
    ∀ {l : List DirEntry} {e : DirEntry}, e ∈ l → e.isDir = false →
      photoRecordOf host tls category e ∈ photosLoop host tls category l := by
  intro l
  induction l with
  | nil => intro e he; simp at he
  | cons a rest ih =>
    intro e he hd
    rcases List.mem_cons.mp he with he | he
    · subst he
      rw [photosLoop, if_neg (by rw [hd]; exact Bool.false_ne_true)]
      exact List.mem_cons_self _ _
    · cases ha : a.isDir with
      | true =>
        rw [photosLoop, if_pos (by rw [ha])]
        exact ih he hd
      | false =>
        rw [photosLoop, if_neg (by rw [ha]; exact Bool.false_ne_true)]
        exact List.mem_cons_of_mem _ (ih he hd)

/-- C8: the upload-time title is never persisted.  A listing of a valid
category answers 200, and every record it returns carries a title equal to
its id, both being the stored filename minus its extension, with the
upload date taken from the file's modification time; and the state an
upload leaves behind is identical whatever title was supplied, so the
title can influence nothing beyond the immediate upload response. -/
theorem claim_C8 :
    (∀ (category host : String) (tls : Bool) (fs : PhotoFS)
       (entries : List DirEntry),
       validCategories category = true →
       fs.readDir category = some entries →
       (getPhotosByCategoryHandler category host tls fs).1 = 200 ∧
       ∃ l, (getPhotosByCategoryHandler category host tls fs).2.data =
           .photos l ∧
         ∀ r ∈ l, r.title = r.id ∧
           ∃ e, e ∈ entries ∧ e.isDir = false ∧ r.filename = e.name ∧
             r.id = trimSuffix e.name (filepathExt e.name) ∧
             r.uploadDate = formatRFC3339 e.modTime) ∧
    (∀ (titleA titleB : Filename) (category : String) (file : Option FilePart)
       (randBytes : List Nat) (now : Nat) (host : String) (tls : Bool)
       (fs : PhotoFS),
       (uploadPhotoHandler ⟨titleA, category, file⟩ randBytes now host tls fs).2.2 =
       (uploadPhotoHandler ⟨titleB, category, file⟩ randBytes now host tls fs).2.2) := by
  constructor
  · intro category host tls fs entries hv hrd
    have hget : getPhotosByCategoryHandler category host tls fs =
        (200, ⟨true, none, none, none,
          .photos (photosLoop host tls category entries)⟩) := by
      simp [getPhotosByCategoryHandler, hv, hrd]
    rw [hget]
    refine ⟨rfl, photosLoop host tls category entries, rfl, ?_⟩
    intro r hr
    obtain ⟨e, he, hd, hrr⟩ := photosLoop_sound hr
    subst hrr
    exact ⟨rfl, e, he, hd, rfl, rfl, rfl⟩
  · intro titleA titleB category file randBytes now host tls fs
    cases hv : validCategories category with
    | false => simp [uploadPhotoHandler, hv]
    | true =>
      cases file with
      | none => simp [uploadPhotoHandler, hv]
      | some fp =>
        cases hct : hasPrefixGo fp.contentType "image/" with
        | false => simp [uploadPhotoHandler, hv, hct]
        | true =>
          cases hrd : fs.readDir category with
          | none => simp [uploadPhotoHandler, hv, hct, hrd]
          | some entries =>
            cases hcf : createFile entries
                (generateID randBytes ++ filepathExt fp.filename)
                fp.content now with
            | none => simp [uploadPhotoHandler, hv, hct, hrd, hcf]
            | some entries2 => simp [uploadPhotoHandler, hv, hct, hrd, hcf]

/-- Witness for C8: a one-file photography directory listed back, and two
uploads differing only in their title. -/
theorem claim_C8_witness :
    validCategories "photography" = true ∧
    PhotoFS.readDir ⟨[], [], [], [⟨['a', '.', 'j', 'p', 'g'], false, 5, [1]⟩]⟩
        "photography" = some [⟨['a', '.', 'j', 'p', 'g'], false, 5, [1]⟩] ∧
    ((getPhotosByCategoryHandler "photography" "h" false
        ⟨[], [], [], [⟨['a', '.', 'j', 'p', 'g'], false, 5, [1]⟩]⟩).1 = 200 ∧
     ∃ l, (getPhotosByCategoryHandler "photography" "h" false
         ⟨[], [], [], [⟨['a', '.', 'j', 'p', 'g'], false, 5, [1]⟩]⟩).2.data =
           .photos l ∧
       ∀ r ∈ l, r.title = r.id ∧
         ∃ e, e ∈ [(⟨['a', '.', 'j', 'p', 'g'], false, 5, [1]⟩ : DirEntry)] ∧
           e.isDir = false ∧ r.filename = e.name ∧
           r.id = trimSuffix e.name (filepathExt e.name) ∧
           r.uploadDate = formatRFC3339 e.modTime) ∧
    (uploadPhotoHandler ⟨['x'], "featured",
        some ⟨['b', '.', 'p', 'n', 'g'], "image/png", [2]⟩⟩ [9] 3 "h" false
        ⟨[], [], [], []⟩).2.2 =
      (uploadPhotoHandler ⟨['y'], "featured",
          some ⟨['b', '.', 'p', 'n', 'g'], "image/png", [2]⟩⟩ [9] 3 "h" false
          ⟨[], [], [], []⟩).2.2 :=
  ⟨by decide, by decide,
   claim_C8.1 "photography" "h" false
     ⟨[], [], [], [⟨['a', '.', 'j', 'p', 'g'], false, 5, [1]⟩]⟩
     [⟨['a', '.', 'j', 'p', 'g'], false, 5, [1]⟩] (by decide) (by decide),
   claim_C8.2 ['x'] ['y'] "featured"
     (some ⟨['b', '.', 'p', 'n', 'g'], "image/png", [2]⟩) [9] 3 "h" false
     ⟨[], [], [], []⟩⟩

/-- Hex digits are never a dot or a path separator. -/
theorem hexDigit_ne_dot_slash (n : Nat) : hexDigit n ≠ '.' ∧ hexDigit n ≠ '/' := by
  have h : n % 16 < 16 := Nat.mod_lt _ (by omega)
  simp only [hexDigit]
  revert h
  generalize n % 16 = k
  intro h
  interval_cases k <;> decide

/-- No character of a hex encoding is a dot or a path separator. -/
theorem hexEncode_ne_dot_slash {bs : List Nat} :
    ∀ c ∈ hexEncode bs, c ≠ '.' ∧ c ≠ '/' := by
  induction bs with
  | nil => intro c hc; simp [hexEncode] at hc
  | cons b rest ih =>
    intro c hc
    rw [hexEncode] at hc
    rcases List.mem_cons.mp hc with hc | hc
    · subst hc; exact hexDigit_ne_dot_slash _
    · rcases List.mem_cons.mp hc with hc | hc
      · subst hc; exact hexDigit_ne_dot_slash _
      · exact ih c hc

/-- A reversed path without dots has no extension. -/
theorem extOfRev_eq_nil {l : List Char} (h : ∀ c ∈ l, c ≠ '.') :
    extOfRev l = [] := by
  induction l with
  | nil => rfl
  | cons c rest ih =>
    have hdot := h c (List.mem_cons_self _ _)
    have ih2 := ih (fun x hx => h x (List.mem_cons_of_mem _ hx))
    by_cases hsl : c = '/'
    · simp [extOfRev, hsl]
    · simp [extOfRev, hsl, hdot, ih2]

/-- The extension scan consumes dot-free, slash-free characters up to the
first dot of the reversed path. -/
theorem extOfRev_append_dot {s : List Char} (rest : List Char)
    (h : ∀ c ∈ s, c ≠ '.' ∧ c ≠ '/') :
    extOfRev (s ++ '.' :: rest) = s ++ ['.'] := by
  induction s with
  | nil => simp [extOfRev]
  | cons c s ih =>
    have hc := h c (List.mem_cons_self _ _)
    have ih2 := ih (fun x hx => h x (List.mem_cons_of_mem _ hx))
    rw [List.cons_append, extOfRev, if_neg hc.2, if_neg hc.1, ih2]
    simp

/-- An extracted extension is empty or a dot followed by dot-free,
slash-free characters. -/
theorem filepathExt_structure (s : Filename) :
    filepathExt s = [] ∨
      ∃ t, filepathExt s = '.' :: t ∧ ∀ c ∈ t, c ≠ '.' ∧ c ≠ '/' := by
  suffices haux : ∀ l : List Char, extOfRev l = [] ∨
      ∃ t, extOfRev l = t ++ ['.'] ∧ ∀ c ∈ t, c ≠ '.' ∧ c ≠ '/' by
    rcases haux s.reverse with h | ⟨t, ht, hprop⟩
    · left; rw [filepathExt, h]; rfl
    · right
      refine ⟨t.reverse, ?_, ?_⟩
      · rw [filepathExt, ht]; simp
      · intro c hc; exact hprop c (List.mem_reverse.mp hc)
  intro l
  induction l with
  | nil => exact Or.inl rfl
  | cons c rest ih =>
    by_cases hsl : c = '/'
    · left; simp [extOfRev, hsl]
    · by_cases hdot : c = '.'
      · right; exact ⟨[], by simp [extOfRev, hsl, hdot], by simp⟩
      · rcases ih with h | ⟨t, ht, hprop⟩
        · left; simp [extOfRev, hsl, hdot, h]
        · right
          refine ⟨c :: t, ?_, ?_⟩
          · rw [extOfRev, if_neg hsl, if_neg hdot, ht]
            simp
          · intro x hx
            rcases List.mem_cons.mp hx with hx | hx
            · subst hx; exact ⟨hdot, hsl⟩
            · exact hprop x hx

/-- `TrimSuffix` undoes appending the suffix. -/
theorem trimSuffix_append (a b : Filename) : trimSuffix (a ++ b) b = a := by
  have hsuf : b.isSuffixOf (a ++ b) = true :=
    List.isSuffixOf_iff_suffix.mpr (List.suffix_append a b)
  rw [trimSuffix, if_pos hsuf, List.length_append, Nat.add_sub_cancel]
  exact List.take_left a b

/-- Appending the extension of an arbitrary original filename to a
dot-free, slash-free id gives a filename whose extension is that
extension and whose stem is the id again. -/
theorem stemOf_generated (photoID orig : Filename)
    (hid : ∀ c ∈ photoID, c ≠ '.' ∧ c ≠ '/') :
    filepathExt (photoID ++ filepathExt orig) = filepathExt orig ∧
    stemOf (photoID ++ filepathExt orig) = photoID := by
  rcases filepathExt_structure orig with h | ⟨t, ht, hprop⟩
  · rw [h, List.append_nil]
    have hext : filepathExt photoID = [] := by
      rw [filepathExt, extOfRev_eq_nil]
      · rfl
      · intro c hc; exact (hid c (List.mem_reverse.mp hc)).1
    refine ⟨hext, ?_⟩
    rw [stemOf, hext]
    have hsuf : ([] : Filename).isSuffixOf photoID = true :=
      List.isSuffixOf_iff_suffix.mpr List.nil_suffix
    rw [trimSuffix, if_pos hsuf]
    simp
  · rw [ht]
    have hrev : (photoID ++ '.' :: t).reverse =
        t.reverse ++ '.' :: photoID.reverse := by
      simp
    have hext : filepathExt (photoID ++ '.' :: t) = '.' :: t := by
      rw [filepathExt, hrev, extOfRev_append_dot photoID.reverse
        (fun c hc => hprop c (List.mem_reverse.mp hc))]
      simp
    refine ⟨hext, ?_⟩
    rw [stemOf, hext]
    exact trimSuffix_append photoID ('.' :: t)

/-- The directory `os.Create` leaves behind holds a regular file of the
requested name. -/
theorem createFile_mem {entries : List DirEntry} {name : Filename}
    {content : List Nat} {now : Nat} {entries2 : List DirEntry}
    (h : createFile entries name content now = some entries2) :
    ∃ e, e ∈ entries2 ∧ e.name = name ∧ e.isDir = false := by
  rw [createFile] at h
  cases hf : entries.find? (fun e => e.name == name) with
  | none =>
    rw [hf] at h
    simp only [Option.some.injEq] at h
    subst h
    exact ⟨⟨name, false, now, content⟩, by simp, rfl, rfl⟩
  | some e0 =>
    rw [hf] at h
    cases hd : e0.isDir with
    | true => simp [hd] at h
    | false =>
      simp only [hd, Bool.false_eq_true, if_false, Option.some.injEq] at h
      subst h
      have hmem := List.mem_of_find?_eq_some hf
      have hname : (e0.name == name) = true := by
        have hx := List.find?_some hf
        simpa using hx
      refine ⟨{e0 with modTime := now, content := content}, ?_, ?_, hd⟩
      · have := List.mem_map_of_mem (fun e2 =>
          if e2.name == name then {e2 with modTime := now, content := content}
          else e2) hmem
        simpa [hname] using this
      · simpa using beq_iff_eq.mp hname

/-- Inversion of a successful upload: all checks passed and the handler
answered 201 with the generated record, writing the file into the
category directory. -/
theorem upload_success_inv {form : UploadForm} {randBytes : List Nat}
    {now : Nat} {host : String} {tls : Bool} {fs : PhotoFS}
    (h201 : (uploadPhotoHandler form randBytes now host tls fs).1 = 201) :
    ∃ fp entries entries2,
      form.file = some fp ∧
      validCategories form.category = true ∧
      hasPrefixGo fp.contentType "image/" = true ∧
      fs.readDir form.category = some entries ∧
      createFile entries (generateID randBytes ++ filepathExt fp.filename)
        fp.content now = some entries2 ∧
      uploadPhotoHandler form randBytes now host tls fs =
        (201, ⟨true, some "Photo uploaded successfully", none, none,
          .photo ⟨generateID randBytes,
            generateID randBytes ++ filepathExt fp.filename, form.title,
            form.category,
            (if tls then "https" else "http") ++ "://" ++ host ++
              "/photos/" ++ form.category ++ "/" ++
              String.mk (generateID randBytes ++ filepathExt fp.filename),
            formatRFC3339 now⟩⟩,
         fs.setDir form.category entries2) := by
  cases hv : validCategories form.category with
  | false => simp [uploadPhotoHandler, hv] at h201
  | true =>
    cases hfile : form.file with
    | none => simp [uploadPhotoHandler, hv, hfile] at h201
    | some fp =>
      cases hct : hasPrefixGo fp.contentType "image/" with
      | false => simp [uploadPhotoHandler, hv, hfile, hct] at h201
      | true =>
        cases hrd : fs.readDir form.category with
        | none => simp [uploadPhotoHandler, hv, hfile, hct, hrd] at h201
        | some entries =>
          cases hcf : createFile entries
              (generateID randBytes ++ filepathExt fp.filename)
              fp.content now with
          | none => simp [uploadPhotoHandler, hv, hfile, hct, hrd, hcf] at h201
          | some entries2 =>
            refine ⟨fp, entries, entries2, rfl, rfl, hct, rfl, hcf, ?_⟩
            simp [uploadPhotoHandler, hv, hfile, hct, hrd, hcf]

/-- C4: after a successful upload answering id `I` and filename `F`, the
listing of the same category contains a record whose id is `I` and whose
filename is `F`; the listing recomputes that id as the filename minus its
extension, and it coincides with the id generated at upload. -/
theorem claim_C4 (form : UploadForm) (randBytes : List Nat) (now : Nat)
    (host : String) (tls : Bool) (fs : PhotoFS) (host2 : String) (tls2 : Bool)
    (h201 : (uploadPhotoHandler form randBytes now host tls fs).1 = 201) :
    ∃ p : PhotoResponse,
      (uploadPhotoHandler form randBytes now host tls fs).2.1.data = .photo p ∧
      p.id = generateID randBytes ∧
      (getPhotosByCategoryHandler form.category host2 tls2
          (uploadPhotoHandler form randBytes now host tls fs).2.2).1 = 200 ∧
      ∃ l, (getPhotosByCategoryHandler form.category host2 tls2
            (uploadPhotoHandler form randBytes now host tls fs).2.2).2.data =
          .photos l ∧
        ∃ r, r ∈ l ∧ r.id = p.id ∧ r.filename = p.filename ∧
          r.id = trimSuffix r.filename (filepathExt r.filename) := by
  obtain ⟨fp, entries, entries2, hfile, hv, hct, hrd, hcf, hupload⟩ :=
    upload_success_inv h201
  rw [hupload]
  have hread2 : (fs.setDir form.category entries2).readDir form.category =
      some entries2 := readDir_setDir_self hv
  have hget : getPhotosByCategoryHandler form.category host2 tls2
      (fs.setDir form.category entries2) =
      (200, ⟨true, none, none, none,
        .photos (photosLoop host2 tls2 form.category entries2)⟩) := by
    simp [getPhotosByCategoryHandler, hv, hread2]
  obtain ⟨e, hmem, hname, hdir⟩ := createFile_mem hcf
  have hstem := stemOf_generated (generateID randBytes) fp.filename
    (fun c hc => hexEncode_ne_dot_slash c hc)
  refine ⟨_, rfl, rfl, ?_, ?_⟩
  · rw [hget]
  · refine ⟨photosLoop host2 tls2 form.category entries2, by rw [hget], ?_⟩
    refine ⟨photoRecordOf host2 tls2 form.category e,
      photosLoop_complete hmem hdir, ?_, ?_, ?_⟩
    · show trimSuffix e.name (filepathExt e.name) = generateID randBytes
      rw [hname]
      exact hstem.2
    · exact hname
    · show trimSuffix e.name (filepathExt e.name) =
        trimSuffix e.name (filepathExt e.name)
      rfl

/-- Witness for C4: a fresh jpg upload to photography over empty
directories, listed back. -/
theorem claim_C4_witness :
    (uploadPhotoHandler ⟨['t'], "photography",
        some ⟨['p', '.', 'j', 'p', 'g'], "image/jpeg", [1, 2]⟩⟩
        [171, 205] 50 "h" false ⟨[], [], [], []⟩).1 = 201 ∧
    ∃ p : PhotoResponse,
      (uploadPhotoHandler ⟨['t'], "photography",
          some ⟨['p', '.', 'j', 'p', 'g'], "image/jpeg", [1, 2]⟩⟩
          [171, 205] 50 "h" false ⟨[], [], [], []⟩).2.1.data = .photo p ∧
      p.id = generateID [171, 205] ∧
      (getPhotosByCategoryHandler "photography" "h2" true
          (uploadPhotoHandler ⟨['t'], "photography",
              some ⟨['p', '.', 'j', 'p', 'g'], "image/jpeg", [1, 2]⟩⟩
              [171, 205] 50 "h" false ⟨[], [], [], []⟩).2.2).1 = 200 ∧
      ∃ l, (getPhotosByCategoryHandler "photography" "h2" true
            (uploadPhotoHandler ⟨['t'], "photography",
                some ⟨['p', '.', 'j', 'p', 'g'], "image/jpeg", [1, 2]⟩⟩
                [171, 205] 50 "h" false ⟨[], [], [], []⟩).2.2).2.data =
          .photos l ∧
        ∃ r, r ∈ l ∧ r.id = p.id ∧ r.filename = p.filename ∧
          r.id = trimSuffix r.filename (filepathExt r.filename) :=
  ⟨by decide,
   claim_C4 ⟨['t'], "photography",
       some ⟨['p', '.', 'j', 'p', 'g'], "image/jpeg", [1, 2]⟩⟩
     [171, 205] 50 "h" false ⟨[], [], [], []⟩ "h2" true (by decide)⟩

/-- `find?` over an append: the left block is searched first. -/
theorem find?_append {α : Type} (p : α → Bool) (l₁ l₂ : List α) :
    (l₁ ++ l₂).find? p =
      match l₁.find? p with
      | some a => some a
      | none => l₂.find? p := by
  cases h : l₁.find? p with
  | some a =>
    induction l₁ with
    | nil => cases h
    | cons x l ih =>
      cases hx : p x with
      | true =>
        simp only [List.find?_cons, hx] at h
        simp only [List.cons_append, List.find?_cons, hx]
        exact h
      | false =>
        simp only [List.find?_cons, hx] at h
        simp only [List.cons_append, List.find?_cons, hx]
        exact ih h
  | none => simpa using find?_append_left_none l₂ h

/-- Searching the tagged copy of a directory is searching the directory. -/
theorem tagged_find (c : String) (entries : List DirEntry)
    (photoID : Filename) :
    (entries.map (fun e => (c, e))).find? (fun pr => isMatch photoID pr.2) =
      (entries.find? (isMatch photoID)).map (fun e => (c, e)) := by
  rw [List.find?_map]
  rfl

/-- A directory with no match contributes no count. -/
theorem countP_eq_zero_of_find?_none {α : Type} {p : α → Bool} {l : List α}
    (h : l.find? p = none) : l.countP p = 0 :=
  List.countP_eq_zero.mpr (List.find?_eq_none.mp h)

/-- A directory with a match counts at least one. -/
theorem countP_pos_of_find? {α : Type} {p : α → Bool} {l : List α} {e : α}
    (h : l.find? p = some e) : 0 < l.countP p :=
  List.countP_pos_iff.mpr ⟨e, List.mem_of_find?_eq_some h,
    List.find?_some h⟩

/-- Deleting the file the scan found from a duplicate-free directory
lowers its match count by one. -/
theorem countP_eraseP_found {photoID : Filename} {entries : List DirEntry}
    {e : DirEntry} (hnd : dirNodupNames entries)
    (hf : entries.find? (isMatch photoID) = some e) :
    (entries.eraseP (fun x => x.name == e.name)).countP (isMatch photoID) =
      entries.countP (isMatch photoID) - 1 := by
  induction entries with
  | nil => cases hf
  | cons a rest ih =>
    rw [dirNodupNames, List.map_cons, List.nodup_cons] at hnd
    cases hpa : isMatch photoID a with
    | true =>
      have he : e = a := by
        simp only [List.find?_cons, hpa, Option.some.injEq] at hf
        exact hf.symm
      subst he
      rw [List.eraseP_cons]
      simp only [beq_self_eq_true, cond_true]
      rw [List.countP_cons_of_pos _ _ hpa]
      omega
    | false =>
      have hf2 : rest.find? (isMatch photoID) = some e := by
        simpa [List.find?_cons, hpa] using hf
      have hmem := List.mem_of_find?_eq_some hf2
      have hane : (a.name == e.name) = false := by
        rw [beq_eq_false_iff_ne]
        intro hEq
        exact hnd.1 (hEq ▸ List.mem_map_of_mem (fun x => x.name) hmem)
      rw [List.eraseP_cons]
      simp only [hane, cond_false]
      rw [List.countP_cons_of_neg _ _ (by simp [hpa]),
        List.countP_cons_of_neg _ _ (by simp [hpa])]
      exact ih hnd.2 hf2

/-- A delete over directories holding no file with the requested stem
answers 404 and returns the filesystem unchanged. -/
theorem delete_404_of_no_match (fs : PhotoFS) (photoID : Filename)
    (h : countMatches fs photoID = 0) :
    deletePhotoHandler photoID fs = (404, errResponse "Photo not found", fs) := by
  rw [countMatches] at h
  have h1 : fs.featured.countP (isMatch photoID) = 0 := by omega
  have h2 : fs.digitalSketches.countP (isMatch photoID) = 0 := by omega
  have h3 : fs.notebookSketches.countP (isMatch photoID) = 0 := by omega
  have h4 : fs.photography.countP (isMatch photoID) = 0 := by omega
  have f1 : fs.featured.find? (isMatch photoID) = none :=
    List.find?_eq_none.mpr (List.countP_eq_zero.mp h1)
  have f2 : fs.digitalSketches.find? (isMatch photoID) = none :=
    List.find?_eq_none.mpr (List.countP_eq_zero.mp h2)
  have f3 : fs.notebookSketches.find? (isMatch photoID) = none :=
    List.find?_eq_none.mpr (List.countP_eq_zero.mp h3)
  have f4 : fs.photography.find? (isMatch photoID) = none :=
    List.find?_eq_none.mpr (List.countP_eq_zero.mp h4)
  simp [deletePhotoHandler, findPhotoPath, findInDir, f1, f2, f3, f4]

/-- C5 (amended): the delete scan walks the four category directories in
the fixed order featured, digital-sketches, notebook-sketches,
photography and settles on the first regular file whose stem is the id
(part 1); a hit answers 200 and removes exactly the found file (part 2);
with no match anywhere it answers 404 and removes nothing (part 3); and
when exactly one file across the duplicate-free directories carries the
stem, a delete answers 200 and a second delete of the same id answers 404
(part 4 — the second-delete clause needs the match to have been unique;
see the counterexample for why). -/
theorem claim_C5 :
    (∀ (fs : PhotoFS) (photoID : Filename),
       findPhotoPath fs photoID =
         ((allTagged fs).find? (fun pr => isMatch photoID pr.2)).map
           (fun pr => (pr.1, pr.2.name))) ∧
    (∀ (fs : PhotoFS) (photoID : Filename) (cat : String) (name : Filename),
       findPhotoPath fs photoID = some (cat, name) →
       deletePhotoHandler photoID fs =
         (200, msgResponse "Photo deleted successfully",
          fs.removePath cat name)) ∧
    (∀ (fs : PhotoFS) (photoID : Filename),
       countMatches fs photoID = 0 →
       deletePhotoHandler photoID fs =
         (404, errResponse "Photo not found", fs)) ∧
    (∀ (fs : PhotoFS) (photoID : Filename),
       fsNodupNames fs → countMatches fs photoID = 1 →
       (deletePhotoHandler photoID fs).1 = 200 ∧
       deletePhotoHandler photoID ((deletePhotoHandler photoID fs).2.2) =
         (404, errResponse "Photo not found",
          (deletePhotoHandler photoID fs).2.2)) := by
  refine ⟨?_, ?_, ?_, ?_⟩
  · intro fs photoID
    rw [allTagged, find?_append, tagged_find, find?_append, tagged_find,
      find?_append, tagged_find, tagged_find]
    cases f1 : fs.featured.find? (isMatch photoID) with
    | some e => simp [findPhotoPath, findInDir, f1]
    | none =>
      cases f2 : fs.digitalSketches.find? (isMatch photoID) with
      | some e => simp [findPhotoPath, findInDir, f1, f2]
      | none =>
        cases f3 : fs.notebookSketches.find? (isMatch photoID) with
        | some e => simp [findPhotoPath, findInDir, f1, f2, f3]
        | none =>
          cases f4 : fs.photography.find? (isMatch photoID) with
          | some e => simp [findPhotoPath, findInDir, f1, f2, f3, f4]
          | none => simp [findPhotoPath, findInDir, f1, f2, f3, f4]
  · intro fs photoID cat name h
    simp [deletePhotoHandler, h]
  · exact delete_404_of_no_match
  · intro fs photoID hnd hone
    obtain ⟨n1, n2, n3, n4⟩ := hnd
    rw [countMatches] at hone
    cases f1 : fs.featured.find? (isMatch photoID) with
    | some e =>
      have hdel : deletePhotoHandler photoID fs =
          (200, msgResponse "Photo deleted successfully",
           { fs with featured :=
              fs.featured.eraseP (fun x => x.name == e.name) }) := by
        simp [deletePhotoHandler, findPhotoPath, findInDir, f1,
          PhotoFS.removePath, PhotoFS.readDir, PhotoFS.setDir, removeFromDir]
      have hdrop := countP_eraseP_found n1 f1
      have hpos := countP_pos_of_find? f1
      have hcnt : countMatches
          { fs with featured :=
             fs.featured.eraseP (fun x => x.name == e.name) } photoID = 0 := by
        show (fs.featured.eraseP (fun x => x.name == e.name)).countP
            (isMatch photoID) +
          fs.digitalSketches.countP (isMatch photoID) +
          fs.notebookSketches.countP (isMatch photoID) +
          fs.photography.countP (isMatch photoID) = 0
        omega
      rw [hdel]
      exact ⟨rfl, delete_404_of_no_match _ _ hcnt⟩
    | none =>
      have z1 := countP_eq_zero_of_find?_none f1
      cases f2 : fs.digitalSketches.find? (isMatch photoID) with
      | some e =>
        have hdel : deletePhotoHandler photoID fs =
            (200, msgResponse "Photo deleted successfully",
             { fs with digitalSketches :=
                fs.digitalSketches.eraseP (fun x => x.name == e.name) }) := by
          simp [deletePhotoHandler, findPhotoPath, findInDir, f1, f2,
            PhotoFS.removePath, PhotoFS.readDir, PhotoFS.setDir, removeFromDir]
        have hdrop := countP_eraseP_found n2 f2
        have hpos := countP_pos_of_find? f2
        have hcnt : countMatches
            { fs with digitalSketches :=
               fs.digitalSketches.eraseP (fun x => x.name == e.name) }
            photoID = 0 := by
          show fs.featured.countP (isMatch photoID) +
            (fs.digitalSketches.eraseP (fun x => x.name == e.name)).countP
              (isMatch photoID) +
            fs.notebookSketches.countP (isMatch photoID) +
            fs.photography.countP (isMatch photoID) = 0
          omega
        rw [hdel]
        exact ⟨rfl, delete_404_of_no_match _ _ hcnt⟩
      | none =>
        have z2 := countP_eq_zero_of_find?_none f2
        cases f3 : fs.notebookSketches.find? (isMatch photoID) with
        | some e =>
          have hdel : deletePhotoHandler photoID fs =
              (200, msgResponse "Photo deleted successfully",
               { fs with notebookSketches :=
                  fs.notebookSketches.eraseP (fun x => x.name == e.name) }) := by
            simp [deletePhotoHandler, findPhotoPath, findInDir, f1, f2, f3,
              PhotoFS.removePath, PhotoFS.readDir, PhotoFS.setDir, removeFromDir]
          have hdrop := countP_eraseP_found n3 f3
          have hpos := countP_pos_of_find? f3
          have hcnt : countMatches
              { fs with notebookSketches :=
                 fs.notebookSketches.eraseP (fun x => x.name == e.name) }
              photoID = 0 := by
            show fs.featured.countP (isMatch photoID) +
              fs.digitalSketches.countP (isMatch photoID) +
              (fs.notebookSketches.eraseP (fun x => x.name == e.name)).countP
                (isMatch photoID) +
              fs.photography.countP (isMatch photoID) = 0
            omega
          rw [hdel]
          exact ⟨rfl, delete_404_of_no_match _ _ hcnt⟩
        | none =>
          have z3 := countP_eq_zero_of_find?_none f3
          cases f4 : fs.photography.find? (isMatch photoID) with
          | some e =>
            have hdel : deletePhotoHandler photoID fs =
                (200, msgResponse "Photo deleted successfully",
                 { fs with photography :=
                    fs.photography.eraseP (fun x => x.name == e.name) }) := by
              simp [deletePhotoHandler, findPhotoPath, findInDir, f1, f2, f3,
                f4, PhotoFS.removePath, PhotoFS.readDir, PhotoFS.setDir,
                removeFromDir]
            have hdrop := countP_eraseP_found n4 f4
            have hpos := countP_pos_of_find? f4
            have hcnt : countMatches
                { fs with photography :=
                   fs.photography.eraseP (fun x => x.name == e.name) }
                photoID = 0 := by
              show fs.featured.countP (isMatch photoID) +
                fs.digitalSketches.countP (isMatch photoID) +
                fs.notebookSketches.countP (isMatch photoID) +
                (fs.photography.eraseP (fun x => x.name == e.name)).countP
                  (isMatch photoID) = 0
              omega
            rw [hdel]
            exact ⟨rfl, delete_404_of_no_match _ _ hcnt⟩
          | none =>
            have z4 := countP_eq_zero_of_find?_none f4
            omega

/-- Counterexample to C5 as frozen: with `featured/ab.jpg` and
`digital-sketches/ab.png` both stored, both files have stem `ab`; the
first delete of `ab` answers 200 (removing the featured file) and the
second delete also answers 200 (removing the digital-sketches file)
instead of the claimed 404. -/
theorem claim_C5_cex :
    (deletePhotoHandler ['a', 'b']
        ⟨[⟨['a', 'b', '.', 'j', 'p', 'g'], false, 0, []⟩],
         [⟨['a', 'b', '.', 'p', 'n', 'g'], false, 0, []⟩], [], []⟩).1 = 200 ∧
    (deletePhotoHandler ['a', 'b']
        ((deletePhotoHandler ['a', 'b']
            ⟨[⟨['a', 'b', '.', 'j', 'p', 'g'], false, 0, []⟩],
             [⟨['a', 'b', '.', 'p', 'n', 'g'], false, 0, []⟩], [], []⟩).2.2)).1 =
      200 ∧
    (deletePhotoHandler ['a', 'b']
        ((deletePhotoHandler ['a', 'b']
            ⟨[⟨['a', 'b', '.', 'j', 'p', 'g'], false, 0, []⟩],
             [⟨['a', 'b', '.', 'p', 'n', 'g'], false, 0, []⟩], [], []⟩).2.2)).1 ≠
      404 := by
  decide

/-- Witness for C5 (amended): a 404 on an id no file carries, and the
200-then-404 pair on a directory tree holding exactly one `ab` file. -/
theorem claim_C5_witness :
    countMatches ⟨[⟨['a', 'b', '.', 'j', 'p', 'g'], false, 0, []⟩], [], [], []⟩
        ['x'] = 0 ∧
    deletePhotoHandler ['x']
        ⟨[⟨['a', 'b', '.', 'j', 'p', 'g'], false, 0, []⟩], [], [], []⟩ =
      (404, errResponse "Photo not found",
       ⟨[⟨['a', 'b', '.', 'j', 'p', 'g'], false, 0, []⟩], [], [], []⟩) ∧
    fsNodupNames ⟨[⟨['a', 'b', '.', 'j', 'p', 'g'], false, 0, []⟩], [], [], []⟩ ∧
    countMatches ⟨[⟨['a', 'b', '.', 'j', 'p', 'g'], false, 0, []⟩], [], [], []⟩
        ['a', 'b'] = 1 ∧
    ((deletePhotoHandler ['a', 'b']
        ⟨[⟨['a', 'b', '.', 'j', 'p', 'g'], false, 0, []⟩], [], [], []⟩).1 = 200 ∧
     deletePhotoHandler ['a', 'b']
         ((deletePhotoHandler ['a', 'b']
             ⟨[⟨['a', 'b', '.', 'j', 'p', 'g'], false, 0,
                []⟩], [], [], []⟩).2.2) =
       (404, errResponse "Photo not found",
        (deletePhotoHandler ['a', 'b']
            ⟨[⟨['a', 'b', '.', 'j', 'p', 'g'], false, 0,
               []⟩], [], [], []⟩).2.2)) :=
  ⟨by decide,
   claim_C5.2.2.1
     ⟨[⟨['a', 'b', '.', 'j', 'p', 'g'], false, 0, []⟩], [], [], []⟩ ['x']
     (by decide),
   by unfold fsNodupNames dirNodupNames; decide,
   by decide,
   claim_C5.2.2.2
     ⟨[⟨['a', 'b', '.', 'j', 'p', 'g'], false, 0, []⟩], [], [], []⟩ ['a', 'b']
     (by unfold fsNodupNames dirNodupNames; decide) (by decide)⟩
